import Mathlib

/-
  Verification development for the rag-saas-service retrieval pipeline.

  The Python sources (src/chat_helpers.py and src/chat_api.py) are shallowly
  embedded below.  Conventions of the embedding:
  * Python strings are Lean `String`s, but all computation is carried out on
    `List Char` so that every definition is kernel-computable on concrete
    inputs (structural recursion only; where Python scans with an arbitrary
    stride, a fuel argument bounded by the input length makes the recursion
    structural).
  * Python floats in this code base are produced only by dividing integers
    and by the literals used as thresholds; they are modelled as exact
    rationals (`ℚ`).  Rational addition is expressed through `qadd`, a
    cross-multiplication form that the kernel can evaluate and that is
    provably equal to `+` on `ℚ`.
  * External capabilities (database lookups, embedding computation, the LLM
    chain) are parameters of the embedded functions: a capability that can
    raise is an `Option`-valued argument, `none` standing for the raised
    exception.  Prompt strings that are only ever passed to an external
    capability do not influence any observable output and are not modelled.
  * Python's `list.sort`/`sorted` are stable sorts; they are modelled by a
    stable insertion sort (`pySort`).  Any two stable sorts under the same
    total preorder produce identical output, so this is extensionally exact.
-/

set_option maxRecDepth 20000

namespace RagSaas

/-! ### Generic string and list helpers -/

/-- Membership in the regex character class [a-z]. -/
def isAz (c : Char) : Bool := decide ('a' ≤ c) && decide (c ≤ 'z')

/-- Membership in the regex class \w (word character), ASCII fragment. -/
def isWordChar (c : Char) : Bool := c.isAlphanum || c == '_'

/-- Python str.strip(): remove whitespace from both ends. -/
def stripList (l : List Char) : List Char :=
  ((l.dropWhile Char.isWhitespace).reverse.dropWhile Char.isWhitespace).reverse

/-- Python str.strip(chars): remove any of the given characters from both ends. -/
def stripCharsList (cs : List Char) (l : List Char) : List Char :=
  ((l.dropWhile (fun c => cs.contains c)).reverse.dropWhile (fun c => cs.contains c)).reverse

/-- Python str.lower(), ASCII fragment. -/
def lowerList (l : List Char) : List Char := l.map Char.toLower

/-- Split a character list at every separator character.  Empty pieces are
kept, matching Python str.split(sep).  Used for str.splitlines as well:
splitting at each of \n and \r differs from Python splitlines only by extra
empty pieces at \r\n boundaries, and every caller in the sources filters
blank lines away first, so the two agree on all uses. -/
def splitOnSepAux (p : Char → Bool) : List Char → List Char → List (List Char)
  | [], acc => [acc.reverse]
  | c :: rest, acc =>
    if p c then acc.reverse :: splitOnSepAux p rest []
    else splitOnSepAux p rest (c :: acc)

def splitOnSep (p : Char → Bool) (l : List Char) : List (List Char) :=
  splitOnSepAux p l []

def isLineSep (c : Char) : Bool := c == '\n' || c == '\r'

/-- Python str.split() with no argument: maximal runs of non-whitespace. -/
def wsSplit (l : List Char) : List (List Char) :=
  (splitOnSep Char.isWhitespace l).filter (fun w => !w.isEmpty)

/-- Python sep.join(parts). -/
def joinSep (sep : List Char) : List (List Char) → List Char
  | [] => []
  | [x] => x
  | x :: y :: rest => x ++ sep ++ joinSep sep (y :: rest)

/-- Python str.replace(needle, rep): replace all non-overlapping occurrences,
scanning left to right.  The fuel argument (any bound of at least the input
length works) keeps the recursion structural so the kernel can evaluate it. -/
def replaceFuel (needle rep : List Char) : Nat → List Char → List Char
  | _, [] => []
  | 0, l => l
  | fuel + 1, c :: rest =>
    if !needle.isEmpty && needle.isPrefixOf (c :: rest) then
      rep ++ replaceFuel needle rep fuel (rest.drop (needle.length - 1))
    else
      c :: replaceFuel needle rep fuel rest

def replaceList (needle rep l : List Char) : List Char :=
  replaceFuel needle rep l.length l

/-- Python str.count(sub): count non-overlapping occurrences. -/
def countSubFuel (needle : List Char) : Nat → List Char → Nat
  | _, [] => 0
  | 0, _ => 0
  | fuel + 1, c :: rest =>
    if !needle.isEmpty && needle.isPrefixOf (c :: rest) then
      1 + countSubFuel needle fuel (rest.drop (needle.length - 1))
    else
      countSubFuel needle fuel rest

def countSubList (needle l : List Char) : Nat := countSubFuel needle l.length l

/-- Python substring membership test (needle in hay). -/
def listContainsSub (needle : List Char) : List Char → Bool
  | [] => needle.isEmpty
  | c :: rest => needle.isPrefixOf (c :: rest) || listContainsSub needle rest

/-- Python needle in hay, on strings. -/
def pyInStr (needle hay : String) : Bool := listContainsSub needle.toList hay.toList

/-- Value of a decimal digit string (the argument is all digits), as int(). -/
def natOfDigits (l : List Char) : Nat :=
  l.foldl (fun n c => n * 10 + (c.toNat - 48)) 0

/-! ### Exact rational arithmetic, kernel-computable -/

/-- Exact value of the Python float division a / b for integers (b positive
in every use below). -/
def fracQ (a : Nat) (b : Nat) : ℚ := mkRat a b

/-- Rational addition in a form the kernel evaluates; equal to + on ℚ. -/
def qadd (a b : ℚ) : ℚ := mkRat (a.num * b.den + b.num * a.den) (a.den * b.den)

/-- Python min on two floats. -/
def qmin (a b : ℚ) : ℚ := if a ≤ b then a else b

/-! ### Stable sort, modelling Python's list.sort / sorted -/

/-- Insert x into a sorted list, after all entries that compare
less-than-or-equal: the insertion point of a stable sort. -/
def stableInsert (le : α → α → Bool) (x : α) : List α → List α
  | [] => [x]
  | y :: ys => if le x y && !(le y x) then x :: y :: ys else y :: stableInsert le x ys

/-- Stable insertion sort.  Python's sort is stable; any two stable sorts
under the same total preorder agree, so this models list.sort exactly. -/
def pySort (le : α → α → Bool) (l : List α) : List α :=
  l.foldl (fun acc x => stableInsert le x acc) []

/-! ### Association lists mirroring Python dicts (insertion-ordered) -/

/-- Python dict lookup with default: d.get(k, dflt). -/
def assocGetD (m : List (Int × α)) (k : Int) (d : α) : α :=
  match m with
  | [] => d
  | (k2, v) :: rest => if k2 = k then v else assocGetD rest k d

/-- Python dict assignment d[k] = v: overwrite in place, or append a new key
(dicts preserve insertion order). -/
def setAssoc (m : List (Int × α)) (k : Int) (v : α) : List (Int × α) :=
  match m with
  | [] => [(k, v)]
  | (k2, w) :: rest => if k2 = k then (k2, v) :: rest else (k2, w) :: setAssoc rest k v

/-- Python d[k] = d.get(k, 0.0) + x. -/
def upsertAdd (m : List (Int × ℚ)) (k : Int) (x : ℚ) : List (Int × ℚ) :=
  setAssoc m k (qadd (assocGetD m k 0) x)

/-! ### Data model

Retrieved rows in chat_helpers always carry an integer id: the scoring loop
converts with int(getattr(ch, "id")) unconditionally, so a row without an id
would raise before any claim-relevant behaviour.  The transient attributes
_distance and _rrf that Python attaches with setattr are modelled as the two
score fields of `Scored`. -/

structure Chunk where
  id : Int
  content : String
  deriving DecidableEq

structure Scored where
  chunk : Chunk
  distance : ℚ
  rrf : ℚ
  deriving DecidableEq

/-- Candidate dict built by the /chat endpoint and consumed by the relevance
gate and the coverage gate (keys chunk_id, document_id, chunk_index, content,
source, score). -/
structure Candidate where
  chunk_id : Option Int
  document_id : Option Int
  chunk_index : Option Int
  content : Option String
  source : Option String
  score : Option ℚ
  deriving DecidableEq

namespace ChatHelpers

/-! ### chat_helpers.normalize_query_for_retrieval -/

def junkPhrases : List String :=
  ["summarize", "based on the provided sources", "based on the sources",
   "based on sources", "please", "what are", "what is", "give me",
   "provide", "?"]

/-- Embeds chat_helpers.normalize_query_for_retrieval: lowercase, delete the
junk phrases in order, collapse whitespace. -/
def normalize_query_for_retrieval (question : String) : String :=
  let q := lowerList question.toList
  let q := junkPhrases.foldl (fun acc j => replaceList j.toList [] acc) q
  String.mk (joinSep [' '] (wsSplit q))

/-! ### chat_helpers._is_noise_chunk (structural noise filter) -/

def bulletishLine (ln : List Char) : Bool :=
  (!(ln.take 2).isEmpty && (ln.take 2).all Char.isDigit
      && (((ln.drop 1).take 1 == ['.'] || (ln.drop 1).take 1 == [')'])
        || ((ln.drop 2).take 1 == ['.'] || (ln.drop 2).take 1 == [')'])))
  || (ln.headD ' ' == '-' || ln.headD ' ' == '•' || ln.headD ' ' == '*')
  || ((ln.headD ' ' == '(' || ln.headD ' ' == '[') && ln.length > 2
      && ((ln.drop 1).headD ' ').isDigit)

/-- Embeds chat_helpers._is_noise_chunk, the structural noise filter used by
the fused retrieval path.  Ratios are exact rationals; the float literals
0.70, 0.14, 0.05, 0.60 are the rationals 70/100 etc. -/
def _is_noise_chunk (text : String) : Bool :=
  let raw := text.toList
  if raw.isEmpty then true else
  let t := stripList raw
  if t.length < 160 then true else
  let lines := ((splitOnSep isLineSep t).map stripList).filter (fun ln => !ln.isEmpty)
  if lines.isEmpty then true else
  -- 1) Too many very short lines -> list/TOC/table fragments
  if lines.length ≥ 8
      && decide (fracQ 70 100 ≤ fracQ (lines.countP (fun ln => ln.length ≤ 45)) lines.length)
    then true else
  -- 2) Question-prompt blocks: many lines starting with numbering/bullets
  if lines.length ≥ 6 && (lines.take 30).countP bulletishLine ≥ 4 then true else
  -- 3) Table-like: digit density, separators, comma density
  let total_chars := t.length
  if decide (fracQ 14 100 ≤ fracQ (t.countP Char.isDigit) (Nat.max 1 total_chars)) then true else
  if t.countP (fun c => c == '|') + t.countP (fun c => c == '\t') ≥ 6 then true else
  if decide (fracQ 5 100 ≤ fracQ (t.countP (fun c => c == ',')) (Nat.max 1 total_chars))
      && lines.length ≥ 6 then true else
  if countSubList [' ', ' '] t ≥ 20 && lines.length ≥ 8 then true else
  -- 4) Header/footer artifacts: near-uniform line lengths
  if lines.length ≥ 10
      && decide (fracQ 60 100 ≤
          fracQ (((lines.take 30).map List.length).countP
              (fun x => ((x : Int) - (((lines.take 30).map List.length).headD 0 : Int)).natAbs ≤ 3))
            ((lines.take 30).map List.length).length)
    then true
  else false

/-! ### chat_helpers._retrieve_candidates (RRF fusion retrieval)

The database and embedding calls are external capabilities: the embedded
function receives, for each normalized query string, the vector-search rows
and the full-text rows (each a chunk with its distance).  The k arguments of
the lookups only parametrize those external calls and are absorbed into the
capability functions. -/

def RRF_K : Nat := 60

/-- Per-query scoring state: the dicts scores, chunk_by_id, dist_by_id. -/
structure QState where
  scores : List (Int × ℚ)
  chunkById : List (Int × Chunk)
  distById : List (Int × ℚ)

def initQState : QState := ⟨[], [], []⟩

/-- First enumerate loop: vector rows at ranks rank, rank+1, ... -/
def scoreVecRows (rank : Nat) (st : QState) : List (Chunk × ℚ) → QState
  | [] => st
  | (ch, dist) :: rest =>
    scoreVecRows (rank + 1)
      { scores := upsertAdd st.scores ch.id (fracQ 1 (RRF_K + rank)),
        chunkById := setAssoc st.chunkById ch.id ch,
        distById := setAssoc st.distById ch.id dist } rest

/-- Second enumerate loop: full-text rows; the retained distance is the
minimum of the existing one (default 999.0) and this row's. -/
def scoreFtsRows (rank : Nat) (st : QState) : List (Chunk × ℚ) → QState
  | [] => st
  | (ch, dist) :: rest =>
    scoreFtsRows (rank + 1)
      { scores := upsertAdd st.scores ch.id (fracQ 1 (RRF_K + rank)),
        chunkById := setAssoc st.chunkById ch.id ch,
        distById := setAssoc st.distById ch.id
          (qmin (assocGetD st.distById ch.id 999) dist) } rest

def fuseQuery (vec fts : List (Chunk × ℚ)) : QState :=
  scoreFtsRows 1 (scoreVecRows 1 initQState vec) fts

/-- Rows for one query: for each scored chunk id (in dict insertion order)
the chunk, its distance and its fused score, then sorted by fused score
descending (stable).  The chunk_by_id lookup cannot miss: every key of
scores is written to chunk_by_id in the same iteration; the default is
unreachable. -/
def queryRows (vec fts : List (Chunk × ℚ)) : List (Chunk × ℚ × ℚ) :=
  let st := fuseQuery vec fts
  let rows := st.scores.map (fun p =>
    (assocGetD st.chunkById p.1 ⟨p.1, ""⟩, assocGetD st.distById p.1 999, p.2))
  pySort (fun a b => decide (b.2.2 ≤ a.2.2)) rows

/-- Accumulated merging state across queries. -/
structure MergeState where
  merged : List Scored
  fallback_rows : List Scored
  seen_ids : List Int

def initMergeState : MergeState := ⟨[], [], []⟩

/-- One iteration of the merging loop over a query's sorted rows: maintain
the capped pre-noise fallback pool, then drop noise, then drop duplicate
ids, else keep. -/
def mergeRow (st : MergeState) (row : Chunk × ℚ × ℚ) : MergeState :=
  let ch := row.1
  let dist := row.2.1
  let rrf := row.2.2
  let fb :=
    if st.fallback_rows.length < 50 && !(st.seen_ids.contains ch.id) then
      st.fallback_rows ++ [⟨ch, dist, rrf⟩]
    else st.fallback_rows
  if _is_noise_chunk ch.content then
    { st with fallback_rows := fb }
  else if st.seen_ids.contains ch.id then
    { st with fallback_rows := fb }
  else
    { merged := st.merged ++ [⟨ch, dist, rrf⟩],
      fallback_rows := fb,
      seen_ids := st.seen_ids ++ [ch.id] }

def mergeRows (st : MergeState) : List (Chunk × ℚ × ℚ) → MergeState
  | [] => st
  | row :: rest => mergeRows (mergeRow st row) rest

def processQuery (getVec getFts : String → List (Chunk × ℚ))
    (st : MergeState) (q : String) : MergeState :=
  let nq := normalize_query_for_retrieval q
  mergeRows st (queryRows (getVec nq) (getFts nq))

def runQueries (questions : List String)
    (getVec getFts : String → List (Chunk × ℚ)) : MergeState :=
  questions.foldl (processQuery getVec getFts) initMergeState

/-- Final ordering: fused score descending, ties by distance ascending. -/
def byRrfThenDist (a b : Scored) : Bool :=
  decide (b.rrf < a.rrf) || (decide (a.rrf = b.rrf) && decide (a.distance ≤ b.distance))

/-- Embeds chat_helpers._retrieve_candidates.  getVec and getFts stand for
the external vector and full-text lookups (already composed with embedding
computation), applied to the normalized query. -/
def _retrieve_candidates (questions : List String)
    (getVec getFts : String → List (Chunk × ℚ)) : List Scored :=
  let st := runQueries questions getVec getFts
  let merged := pySort byRrfThenDist st.merged
  if st.merged.isEmpty && !st.fallback_rows.isEmpty then
    pySort byRrfThenDist st.fallback_rows
  else merged

/-! ### chat_helpers coverage gate -/

/-- Transcribed from chat_helpers._STOPWORDS (the source set literal lists
"when" twice; list membership is unaffected). -/
def _STOPWORDS : List String :=
  ["a", "an", "the", "and", "or", "but", "if", "then", "else", "when", "while",
   "to", "of", "in", "on", "for", "from", "by", "with",
   "is", "are", "was", "were", "be", "been", "being", "do", "does", "did",
   "what", "which", "who", "whom", "whose", "where", "when", "why", "how",
   "about", "into", "over", "under", "between", "among", "as", "at", "it",
   "this", "that", "these", "those", "based", "only", "provided", "context",
   "extract", "list", "present",
   "bullet", "separate", "explicitly", "stated", "summarize", "paragraph"]

/-- Maximal runs of [a-z] characters: re.findall of [a-z]+ (fuel-structural). -/
def letterRunsFuel : Nat → List Char → List (List Char)
  | _, [] => []
  | 0, _ => []
  | fuel + 1, c :: rest =>
    if isAz c then
      ((c :: rest).takeWhile isAz) :: letterRunsFuel fuel ((c :: rest).dropWhile isAz)
    else
      letterRunsFuel fuel rest

def letterRuns (l : List Char) : List (List Char) := letterRunsFuel l.length l

/-- Embeds chat_helpers._tokenize_for_coverage.  The Python set of tokens is
represented by the duplicate-free list of tokens in first-occurrence order;
all consumers use only membership and cardinality. -/
def _tokenize_for_coverage (text : String) : List (List Char) :=
  let tokens := letterRuns (lowerList text.toList)
  (tokens.filter
    (fun t => t.length ≥ 3 && !(_STOPWORDS.map String.toList).contains t)).eraseDups

/-- The running best-overlap computation inside _passes_coverage_gate. -/
def bestOverlap (qTerms : List (List Char)) : List Candidate → ℚ → ℚ
  | [], best => best
  | c :: rest, best =>
    let chTerms := _tokenize_for_coverage ((c.content).getD "")
    if chTerms.isEmpty then bestOverlap qTerms rest best
    else
      let overlap := fracQ (qTerms.countP (fun t => chTerms.contains t))
        (Nat.max 1 qTerms.length)
      bestOverlap qTerms rest (if best < overlap then overlap else best)

/-- Embeds chat_helpers._passes_coverage_gate: accept only if the best
lexical-overlap ratio among the top 10 candidates reaches 0.20. -/
def _passes_coverage_gate (question : String) (candidates : List Candidate) : Bool :=
  let qTerms := _tokenize_for_coverage question
  if qTerms.isEmpty then true
  else decide (fracQ 20 100 ≤ bestOverlap qTerms (candidates.take 10) 0)

end ChatHelpers

namespace ChatApi

/-! ### chat_api._NOISE_PATTERNS and chat_api._is_noise_chunk

Each pattern in _NOISE_PATTERNS has the shape caret \s* WORD \b and is
applied with re.search (no MULTILINE) to the stripped, lowercased text, so
the \s* part is always empty and a match is exactly: the text starts with
the word and the character following it, if any, is not a word character.
The alternation acknowledg(e)?ments expands to its two variants. -/

def noiseHeaderWords : List String :=
  ["table of contents", "contents", "introduction", "abstract", "references",
   "bibliography", "literature", "acknowledgments", "acknowledgements",
   "appendix", "index"]

def matchesNoiseHeader (lower : List Char) : Bool :=
  noiseHeaderWords.any (fun h =>
    h.toList.isPrefixOf lower
      && !(isWordChar ((lower.drop h.toList.length).headD ' ')))

/-- Embeds chat_api._is_noise_chunk (the conservative classifier used by the
/chat endpoint): boilerplate headers, very short fragments, list/table-like
structure.  Float literals 0.70, 0.12, 0.03 appear as exact rationals. -/
def _is_noise_chunk (text : String) : Bool :=
  let raw := text.toList
  if raw.isEmpty then true else
  let t := stripList raw
  if t.length < 120 then true else
  let lower := lowerList t
  -- Obvious section headers / boilerplate
  if matchesNoiseHeader lower then true else
  let lines := ((splitOnSep isLineSep t).map stripList).filter (fun ln => !ln.isEmpty)
  if lines.isEmpty then true else
  let punct := t.countP (fun c => c == '?' || c == '!' || c == ';' || c == ':')
  -- table/list heuristic: many short lines or digit-heavy, no sentence punctuation
  if (decide (fracQ 70 100 ≤
        fracQ (lines.countP (fun ln => ln.length ≤ 40)) (Nat.max 1 lines.length))
      || decide (fracQ 12 100 ≤ fracQ (t.countP Char.isDigit) (Nat.max 1 t.length)))
      && punct ≤ 1 then true else
  -- comma-separated enumerations with low punctuation
  if decide (fracQ 3 100 < fracQ (t.countP (fun c => c == ',')) (Nat.max 1 t.length))
      && punct == 0 && lines.length ≥ 6 then true
  else false

/-! ### chat_api.focus_by_entity

The regex \b[a-z]+ [a-z]+\b is scanned over the lowercased question exactly
as re.findall does: a match needs a word boundary, a maximal [a-z] run, one
space, a second maximal run, and a trailing boundary; the scan resumes after
a match, or one position further after a failed attempt.  The chunks are
duck-typed in Python (only .content is read), so the embedding takes the
content accessor as a parameter. -/

def latinPairsFuel : Nat → Option Char → List Char → List (List Char)
  | 0, _, _ => []
  | _, _, [] => []
  | fuel + 1, prev, c :: rest =>
    let boundary := match prev with
      | none => true
      | some p => !(isWordChar p)
    if isAz c && boundary then
      let w1 := (c :: rest).takeWhile isAz
      let r1 := (c :: rest).dropWhile isAz
      match r1 with
      | ' ' :: r2 =>
        let w2 := r2.takeWhile isAz
        let r3 := r2.dropWhile isAz
        if !w2.isEmpty && !(isWordChar (r3.headD ' ')) then
          (w1 ++ [' '] ++ w2) :: latinPairsFuel fuel (some (w2.getLastD 'a')) r3
        else
          latinPairsFuel fuel (some c) rest
      | _ => latinPairsFuel fuel (some c) rest
    else
      latinPairsFuel fuel (some c) rest

def latinPairs (l : List Char) : List (List Char) :=
  latinPairsFuel (l.length + 1) none l

def focusFallbackStop : List String :=
  ["which", "about", "include", "describe", "traditional", "documented"]

/-- The entity-term set extracted by focus_by_entity from a question: the
two-word matches if any, else the meaningful 5+ letter words.  Sets are
represented as duplicate-free lists in first-occurrence order. -/
def focusTerms (question : String) : List (List Char) :=
  let q := lowerList question.toList
  let latin := (latinPairs q).eraseDups
  if latin.isEmpty then
    ((ChatHelpers.letterRuns q).filter
      (fun w => w.length ≥ 5
        && !(focusFallbackStop.map String.toList).contains w)).eraseDups
  else latin

/-- Embeds chat_api.focus_by_entity. -/
def focus_by_entity (contentOf : α → Option String) (chunks : List α)
    (question : String) (min_keep : Nat := 3) : List α :=
  let entity_terms := focusTerms question
  if entity_terms.isEmpty then chunks
  else
    let focused := chunks.filter (fun ch =>
      entity_terms.any (fun term =>
        listContainsSub term (lowerList ((contentOf ch).getD "").toList)))
    if focused.length < min_keep then chunks else focused

/-! ### chat_api.llm_filter_relevant_chunks (LLM relevance gate)

The chain construction and LLM call are the external judgment capability;
judgeRaw is its outcome, none standing for a raised exception.  The numbered
preview text only feeds the capability and affects no observable output.
Everything after the call is infallible (the index parse guards int() with
isdigit and bounds-checks before indexing), so the except branch fires
exactly when judgeRaw is none. -/

def parsedJudgeIndices (raw : String) : List Nat :=
  (((splitOnSep (fun c => c == ',') raw.toList).map stripList).filter
    (fun s => !s.isEmpty && s.all Char.isDigit)).map natOfDigits

/-- Embeds chat_api.llm_filter_relevant_chunks. -/
def llm_filter_relevant_chunks (question : String) (candidates : List Candidate)
    (judgeRaw : Option String) : List Candidate :=
  if candidates.isEmpty then candidates
  else
    match judgeRaw with
    | none => candidates
    | some raw => (parsedJudgeIndices raw).filterMap (fun i => candidates[i]?)

/-! ### chat_api._rewrite_queries (query planner rewriting)

The LLM call is the external rewrite capability; rewriteRaw is its outcome,
none standing for a raised exception.  QUERY_REWRITE_N is environment
configuration (default 3) and is passed as rewriteN. -/

def _rewrite_queries (question : String) (llmEnabled rewriteEnabled : Bool)
    (rewriteN : Nat) (rewriteRaw : Option String) : List String :=
  if !llmEnabled || !rewriteEnabled then [question]
  else
    match rewriteRaw with
    | none => [question]
    | some raw =>
      let lines := ((splitOnSep isLineSep raw.toList).filter
          (fun ln => !(stripList ln).isEmpty)).map
        (stripCharsList [' ', '-', '\t', '\r', '\n'])
      let queries := lines.filter
        (fun q => !q.isEmpty && !(lowerList q == lowerList question.toList))
      let merged := question.toList :: queries
      let deduped := dedupByLower [] merged
      (deduped.take (Nat.max 1 (rewriteN + 1))).map String.mk
where
  dedupByLower (seen : List (List Char)) : List (List Char) → List (List Char)
    | [] => []
    | q :: rest =>
      if seen.contains (lowerList q) then dedupByLower seen rest
      else q :: dedupByLower (lowerList q :: seen) rest

/-- The search-query planning step at the top of the /chat endpoint:
synthesis uses the raw question alone; other modes rewrite (with a guard
that never lets the list become empty). -/
def searchQueries (mode question : String) (llmEnabled rewriteEnabled : Bool)
    (rewriteN : Nat) (rewriteRaw : Option String) : List String :=
  if mode == "synthesis" then [question]
  else
    let sq := _rewrite_queries question llmEnabled rewriteEnabled rewriteN rewriteRaw
    if sq.isEmpty then [question] else sq

/-! ### chat_api._retrieve_candidates and the /chat endpoint

Rows from the vector lookup are SQLAlchemy Chunk records; the attributes the
endpoint reads are modelled as the fields of ApiChunk (id may be absent,
content may be None, source comes from the joined document).  The transient
_distance attribute is the second component of each returned pair. -/

structure ApiChunk where
  id : Option Int
  document_id : Option Int
  index : Option Int
  content : Option String
  source : Option String
  deriving DecidableEq

/-- State of chat_api._retrieve_candidates' merging loop. -/
structure ApiMergeState where
  merged : List (ApiChunk × ℚ)
  seen_ids : List Int

def apiMergeRow (st : ApiMergeState) (row : ApiChunk × ℚ) : ApiMergeState :=
  let ch := row.1
  if _is_noise_chunk (ch.content.getD "") then st
  else
    match ch.id with
    | some i =>
      if st.seen_ids.contains i then st
      else { merged := st.merged ++ [row], seen_ids := st.seen_ids ++ [i] }
    | none => { st with merged := st.merged ++ [row] }

def apiMergeRows (st : ApiMergeState) : List (ApiChunk × ℚ) → ApiMergeState
  | [] => st
  | row :: rest => apiMergeRows (apiMergeRow st row) rest

/-- Embeds chat_api._retrieve_candidates (the debug-instrumented minimal
retrieval the endpoint calls): per query, vector rows are noise-filtered and
deduplicated by id, then everything is sorted by distance ascending and
capped at CONTEXT_K = 8.  The print statements are not modelled. -/
def _retrieve_candidates (questions : List String)
    (getVec : String → List (ApiChunk × ℚ)) : List (ApiChunk × ℚ) :=
  let final := questions.foldl
    (fun st q =>
      apiMergeRows st (getVec (ChatHelpers.normalize_query_for_retrieval q)))
    ⟨[], []⟩
  let merged := pySort (fun a b => decide (a.2 ≤ b.2)) final.merged
  merged.take 8

/-! ### chat_api.chat (the /chat endpoint) -/

structure ChatRequest where
  workspace_id : String
  question : String
  role : Option String
  mode : Option String

structure ChatResponse where
  workspace_id : String
  question : String
  role : Option String
  answer : String
  sources : List Candidate
  stored_records : Nat
  candidates : List Candidate
  llm_backend : String
  llm_model : String
  mode : Option String
  deriving DecidableEq

def DEFAULT_ROLE : String :=
  "You are a helpful assistant. Answer ONLY using the provided context.\nIf the user asks multiple things, answer the parts that ARE supported by the context.\nFor each part that is NOT supported by the context, explicitly say it is not found in the provided context.\nDo NOT use external knowledge.\n"

def SYNTHESIS_ROLE : String :=
  "You are a helpful assistant. Use ONLY the provided context.\nSynthesize an answer by combining information from multiple context chunks.\nIf the user asks multiple things, answer the supported parts and mark missing parts as not found in the provided context.\nDo NOT use external knowledge.\n\nGrounding rules:\n- Treat each chunk as independent evidence; do not assume facts apply across different entities.\n- Include a claim only if it is explicitly stated in at least one chunk.\n- If chunks contain information about other entities unrelated to the question, ignore those parts.\n"

def refusalAnswer : String :=
  "Reference mode supports only ONE atomic question. Please split your question or use synthesis mode."

/-- The multi-question test inlined in the reference-mode branch of /chat
(and equal to chat_api.is_multi_question): the lowercased question contains
a comma, a semicolon or the word and with surrounding spaces. -/
def hasMultiSep (question : String) : Bool :=
  let q := lowerList question.toList
  listContainsSub " and ".toList q || listContainsSub [','] q || listContainsSub [';'] q

/-- Normalized mode: (request.mode or "reference").strip().lower(), where
Python's or replaces both None and the empty string. -/
def chatMode (req : ChatRequest) : String :=
  let rawMode := match req.mode with
    | none => "reference"
    | some m => if m.toList.isEmpty then "reference" else m
  String.mk (lowerList (stripList rawMode.toList))

/-- The candidate dict the endpoint builds from each retrieved chunk. -/
def toCandidate (p : ApiChunk × ℚ) : Candidate :=
  { chunk_id := p.1.id, document_id := p.1.document_id, chunk_index := p.1.index,
    content := p.1.content, source := p.1.source, score := some p.2 }

/-- Candidates surviving the endpoint's pipeline up to the relevance gate:
plan queries, retrieve, focus by entity, cap at CONTEXT_K = 8, build dicts,
filter with the LLM relevance gate. -/
def chatCandidates (req : ChatRequest) (llmEnabled rewriteEnabled : Bool)
    (rewriteN : Nat) (rewriteRaw : Option String)
    (getVec : String → List (ApiChunk × ℚ)) (judgeRaw : Option String) :
    List Candidate :=
  let mode := chatMode req
  let queries := if mode == "synthesis" then [req.question]
    else
      let sq := _rewrite_queries req.question llmEnabled rewriteEnabled rewriteN rewriteRaw
      if sq.isEmpty then [req.question] else sq
  let chunk_objs := _retrieve_candidates queries getVec
  let chunk_objs := focus_by_entity (fun p => p.1.content) chunk_objs req.question 3
  let chunk_objs := chunk_objs.take 8
  llm_filter_relevant_chunks req.question (chunk_objs.map toCandidate) judgeRaw

/-- The sources list is rebuilt from the candidate dicts with the same keys. -/
def toSource (c : Candidate) : Candidate :=
  { chunk_id := c.chunk_id, document_id := c.document_id,
    chunk_index := c.chunk_index, content := c.content, source := c.source,
    score := c.score }

/-- Embeds the /chat endpoint chat_api.chat.  genAnswer is the external
answer generator (build_llm_chain plus get_llm_answer), taking the effective
role, the question and the joined context; llm_backend and llm_model are the
environment strings echoed into the response. -/
def chat (req : ChatRequest) (llmEnabled rewriteEnabled : Bool) (rewriteN : Nat)
    (rewriteRaw : Option String) (getVec : String → List (ApiChunk × ℚ))
    (judgeRaw : Option String) (genAnswer : String → String → String → String)
    (llm_backend llm_model : String) : ChatResponse :=
  let mode := chatMode req
  let candidates := chatCandidates req llmEnabled rewriteEnabled rewriteN rewriteRaw getVec judgeRaw
  let stored_records := candidates.length
  let respond := fun (answer : String) =>
    { workspace_id := req.workspace_id, question := req.question, role := req.role,
      answer := answer, sources := candidates.map toSource,
      stored_records := stored_records, candidates := candidates,
      llm_backend := llm_backend, llm_model := llm_model,
      mode := req.mode : ChatResponse }
  if stored_records == 0 then respond "This is a stub answer."
  else
    let context := String.mk (joinSep "\n\n---\n\n".toList
      ((candidates.filterMap Candidate.content).filter
        (fun s => !s.toList.isEmpty) |>.map String.toList))
    if !llmEnabled then respond "LLM is temporarily disabled. Please try again later."
    else if mode == "reference" && hasMultiSep req.question then
      { workspace_id := req.workspace_id, question := req.question, role := req.role,
        answer := refusalAnswer, sources := [], stored_records := 0,
        candidates := [], llm_backend := llm_backend, llm_model := llm_model,
        mode := some mode }
    else
      let effective_role :=
        if mode == "synthesis" then SYNTHESIS_ROLE
        else if mode == "custom" then
          match req.role with
          | some r => if (stripList r.toList).isEmpty then DEFAULT_ROLE
                      else String.mk (stripList r.toList)
          | none => DEFAULT_ROLE
        else DEFAULT_ROLE
      respond (genAnswer effective_role req.question context)

end ChatApi

/-! ### Specification-side definitions used to state the claims -/

namespace ChatHelpers

/-- Total reciprocal-rank contribution of one ranked list to a chunk id, as
the specification words it: an item at 1-indexed rank r contributes
1/(K_rrf + r), and contributions of all its occurrences are summed.  The
first row of the list carries the given starting rank. -/
def rrfListContrib (cid : Int) (rank : Nat) : List (Chunk × ℚ) → ℚ
  | [] => 0
  | (ch, _) :: rest =>
    (if ch.id = cid then fracQ 1 (RRF_K + rank) else 0) + rrfListContrib cid (rank + 1) rest

end ChatHelpers

namespace ChatApi

/-- Worded from the claim: the text begins with one of the six boilerplate
section headers it lists, anchored at the start, with a regex word boundary
after the header. -/
def beginsWithBoilerplate (s : List Char) : Bool :=
  (["table of contents", "references", "bibliography", "index", "appendix",
    "acknowledgments"] : List String).any (fun h =>
    h.toList.isPrefixOf s && !(isWordChar ((s.drop h.toList.length).headD ' ')))

end ChatApi

/-! ### Concrete sample inputs used by witnesses and counterexamples -/

/-- A 200-character single line of prose-like text: long enough and
structureless enough to pass both noise classifiers. -/
def prose : String := String.mk (List.replicate 200 'a')

/-- A 130-character single line: passes the chat_api classifier (threshold
120). -/
def prose130 : String := String.mk (List.replicate 130 'a')

/-- A document that opens with the references header followed by enough
text to exceed every length threshold. -/
def refsDoc : String := String.mk ("references ".toList ++ List.replicate 150 'a')

/-- Scenario D of the specification, two queries with overlapping vector
lists of five chunks: chunk 1 is ranked first by the first query and third
by the second. -/
def gvScenarioD : String → List (Chunk × ℚ) := fun q =>
  if q == "qa" then
    [(⟨1, prose⟩, 1), (⟨2, prose⟩, 1), (⟨3, prose⟩, 1), (⟨4, prose⟩, 1), (⟨5, prose⟩, 1)]
  else
    [(⟨6, prose⟩, 1), (⟨7, prose⟩, 1), (⟨1, prose⟩, 1), (⟨8, prose⟩, 1), (⟨9, prose⟩, 1)]

/-- Both queries return the same single noise chunk (content below the
160-character floor), so only the fallback pool survives. -/
def gvNoiseOnly : String → List (Chunk × ℚ) := fun _ => [(⟨5, "x"⟩, 1)]

/-- A single non-noise chunk for every query. -/
def gvSingle : String → List (Chunk × ℚ) := fun _ => [(⟨1, prose⟩, 1)]

def candA : Candidate := ⟨some 1, some 1, some 0, some "alpha facts", some "s", some 1⟩

def candB : Candidate := ⟨some 2, some 1, some 1, some "beta facts", some "s", some 2⟩

def candC : Candidate := ⟨some 3, some 1, some 2, some "gamma facts", some "s", some 3⟩

def candOffTopic : Candidate :=
  ⟨some 4, some 1, some 3, some "unrelated words entirely", some "s", some 4⟩

def candHyp1 : Candidate :=
  ⟨some 5, some 1, some 4, some "hypericum grows in meadows", some "s", none⟩

def candHyp2 : Candidate :=
  ⟨some 6, some 1, some 5, some "hypericum is used in teas", some "s", none⟩

/-- A reference-mode request whose question contains a comma. -/
def reqRef : ChatApi.ChatRequest := ⟨"w", "a, b", none, some "reference"⟩

/-- One retrievable chunk that survives the chat_api noise filter. -/
def gvApiSingle : String → List (ChatApi.ApiChunk × ℚ) :=
  fun _ => [(⟨some 1, some 1, some 0, some prose130, some "s"⟩, 1)]

/-! ## Theorems

First the generic helper lemmas about the embedding's building blocks, then
one theorem (plus witness or counterexample) per claim. -/

theorem qadd_eq_add (a b : ℚ) : qadd a b = a + b := (Rat.add_def' a b).symm

theorem stableInsert_perm (le : α → α → Bool) (x : α) (l : List α) :
    (stableInsert le x l).Perm (x :: l) := by
  induction l with
  | nil => simp [stableInsert]
  | cons y ys ih =>
    simp only [stableInsert]
    split
    · exact List.Perm.refl _
    · exact (List.Perm.cons y ih).trans (List.Perm.swap x y ys)

theorem pySort_perm (le : α → α → Bool) (l : List α) : (pySort le l).Perm l := by
  suffices h : ∀ (l : List α) (acc : List α),
      (l.foldl (fun acc x => stableInsert le x acc) acc).Perm (acc ++ l) by
    simpa using h l []
  intro l
  induction l with
  | nil => intro acc; simp
  | cons x xs ih =>
    intro acc
    simp only [List.foldl_cons]
    refine (ih (stableInsert le x acc)).trans ?_
    refine (List.Perm.append_right xs ((stableInsert_perm le x acc))).trans ?_
    exact List.perm_middle.symm

theorem pySort_length (le : α → α → Bool) (l : List α) :
    (pySort le l).length = l.length :=
  (pySort_perm le l).length_eq

theorem pySort_ne_nil (le : α → α → Bool) (l : List α) (h : l ≠ []) :
    pySort le l ≠ [] := by
  intro hc
  have := pySort_length le l
  rw [hc] at this
  exact h (List.eq_nil_of_length_eq_zero this.symm)

theorem assocGetD_setAssoc (m : List (Int × α)) (k j : Int) (v : α) (d : α) :
    assocGetD (setAssoc m k v) j d = if j = k then v else assocGetD m j d := by
  induction m with
  | nil =>
    simp only [setAssoc, assocGetD]
    by_cases h : k = j
    · subst h; simp
    · rw [if_neg h, if_neg (fun h2 => h h2.symm)]
  | cons p rest ih =>
    obtain ⟨k2, w⟩ := p
    by_cases h1 : k2 = k
    · subst h1
      simp only [setAssoc, if_pos rfl, assocGetD]
      by_cases h2 : k2 = j
      · rw [if_pos h2, if_pos h2.symm]
      · rw [if_neg h2, if_neg (fun h3 => h2 h3.symm), if_neg h2]
    · simp only [setAssoc, if_neg h1, assocGetD]
      by_cases h2 : k2 = j
      · have h3 : ¬ j = k := fun h4 => h1 (h2.trans h4)
        rw [if_pos h2, if_neg h3, if_pos h2]
      · rw [if_neg h2, ih, if_neg h2]

theorem setAssoc_ne_nil (m : List (Int × α)) (k : Int) (v : α) :
    setAssoc m k v ≠ [] := by
  cases m with
  | nil => simp [setAssoc]
  | cons p rest =>
    obtain ⟨k2, w⟩ := p
    by_cases h : k2 = k <;> simp [setAssoc, h]

theorem assocGetD_upsertAdd (m : List (Int × ℚ)) (k j : Int) (x : ℚ) :
    assocGetD (upsertAdd m k x) j 0 =
      assocGetD m j 0 + (if j = k then x else 0) := by
  unfold upsertAdd
  rw [assocGetD_setAssoc]
  by_cases h : j = k
  · subst h; simp [qadd_eq_add]
  · simp [h]

/-! ### C3: fail-open behaviour of the relevance gate -/

/-- C3 counterexample: the claim says that unparsable judgment output makes
the gate return the input unchanged; on a non-empty candidate list and the
judgment output no relevant chunks (which parses to no indices) the live
gate returns the empty list instead. -/
theorem relevance_gate_failopen_counterexample :
    ChatApi.llm_filter_relevant_chunks "q" [candA] (some "no relevant chunks") ≠
      [candA] := by decide

/-- C3 (amended): if the relevance-judgment call raises an exception the
gate returns exactly the input candidate list unchanged; if the call
succeeds but its output parses to no indices, the gate returns the empty
list. -/
theorem relevance_gate_failopen_amended :
    (∀ (q : String) (cs : List Candidate),
      ChatApi.llm_filter_relevant_chunks q cs none = cs) ∧
    (∀ (q : String) (cs : List Candidate) (raw : String),
      ChatApi.parsedJudgeIndices raw = [] →
      ChatApi.llm_filter_relevant_chunks q cs (some raw) = []) := by
  constructor
  · intro q cs
    unfold ChatApi.llm_filter_relevant_chunks
    split <;> rfl
  · intro q cs raw h
    unfold ChatApi.llm_filter_relevant_chunks
    split
    · exact List.isEmpty_iff.mp (by assumption)
    · show (ChatApi.parsedJudgeIndices raw).filterMap (fun i => cs[i]?) = []
      rw [h]
      rfl

theorem relevance_gate_failopen_witness :
    ChatApi.llm_filter_relevant_chunks "q" [candB] none = [candB] ∧
    ChatApi.parsedJudgeIndices "none at all" = [] ∧
    ChatApi.llm_filter_relevant_chunks "q" [candB] (some "none at all") = [] :=
  ⟨relevance_gate_failopen_amended.1 "q" [candB], by decide,
   relevance_gate_failopen_amended.2 "q" [candB] "none at all" (by decide)⟩

/-! ### C4: no minimum base subset in the relevance gate -/

/-- C4 counterexample: the claim says the top max(3, N/3) candidates by
fusion order are always present in the gate output whatever index set the
judgment returns; with three candidates and an empty judgment output the
gate returns the empty list, which does not contain the first candidate. -/
theorem relevance_gate_base_subset_counterexample :
    ChatApi.llm_filter_relevant_chunks "q" [candA, candB, candC] (some "") = [] ∧
    candA ∉ ChatApi.llm_filter_relevant_chunks "q" [candA, candB, candC] (some "") := by
  exact ⟨by decide, by decide⟩

/-- C4 (amended): the gate retains no fixed base subset.  For a non-empty
input and a returned judgment string, the output is exactly the candidates
at the parsed in-range indices, in the order the judgment returned them (so
an empty judged set empties the output); every output element comes from
the input. -/
theorem relevance_gate_no_base_subset_amended :
    ∀ (q : String) (cs : List Candidate) (raw : String), cs ≠ [] →
      ChatApi.llm_filter_relevant_chunks q cs (some raw) =
        (ChatApi.parsedJudgeIndices raw).filterMap (fun i => cs[i]?) ∧
      ∀ c ∈ ChatApi.llm_filter_relevant_chunks q cs (some raw), c ∈ cs := by
  intro q cs raw h
  have he : cs.isEmpty = false := by
    cases cs with
    | nil => exact absurd rfl h
    | cons a l => rfl
  have heq : ChatApi.llm_filter_relevant_chunks q cs (some raw) =
      (ChatApi.parsedJudgeIndices raw).filterMap (fun i => cs[i]?) := by
    unfold ChatApi.llm_filter_relevant_chunks
    rw [he]
    rfl
  refine ⟨heq, ?_⟩
  intro c hc
  rw [heq] at hc
  obtain ⟨i, _, hi⟩ := List.mem_filterMap.mp hc
  exact List.getElem?_mem hi

theorem relevance_gate_no_base_subset_witness :
    ([candA, candB] : List Candidate) ≠ [] ∧
    (ChatApi.llm_filter_relevant_chunks "q" [candA, candB] (some "1,0") =
        (ChatApi.parsedJudgeIndices "1,0").filterMap
          (fun i => ([candA, candB] : List Candidate)[i]?) ∧
      ∀ c ∈ ChatApi.llm_filter_relevant_chunks "q" [candA, candB] (some "1,0"),
        c ∈ ([candA, candB] : List Candidate)) :=
  ⟨by decide, relevance_gate_no_base_subset_amended "q" [candA, candB] "1,0" (by decide)⟩

/-! ### C5: query planning per answer mode -/

/-- C5 counterexample: the claim says reference mode returns exactly the
one-element list with the question; with rewriting enabled (the default)
and a rewrite capability returning one alternative line, reference mode
returns two queries. -/
theorem planner_reference_mode_counterexample :
    ChatApi.searchQueries "reference" "q" true true 3 (some "alt") ≠ ["q"] := by
  decide

/-- C5 (amended): only synthesis mode unconditionally returns exactly the
original question with no rewrite call (the output does not depend on the
rewrite outcome); every mode falls back to the bare question when the
rewrite capability raises or when the LLM is disabled, but reference mode
with rewriting enabled does consume the rewrite outcome. -/
theorem planner_modes_amended :
    (∀ (q : String) (le re : Bool) (n : Nat) (raw : Option String),
      ChatApi.searchQueries "synthesis" q le re n raw = [q]) ∧
    (∀ (mode q : String) (le re : Bool) (n : Nat),
      ChatApi.searchQueries mode q le re n none = [q]) ∧
    (∀ (mode q : String) (re : Bool) (n : Nat) (raw : Option String),
      ChatApi.searchQueries mode q false re n raw = [q]) := by
  have hr : ∀ (q : String) (le re : Bool) (n : Nat),
      ChatApi._rewrite_queries q le re n none = [q] := by
    intro q le re n
    cases le <;> cases re <;> rfl
  have hr2 : ∀ (q : String) (re : Bool) (n : Nat) (raw : Option String),
      ChatApi._rewrite_queries q false re n raw = [q] := by
    intro q re n raw
    rfl
  refine ⟨fun q le re n raw => rfl, ?_, ?_⟩
  · intro mode q le re n
    unfold ChatApi.searchQueries
    split
    · rfl
    · rw [hr]
      rfl
  · intro mode q re n raw
    unfold ChatApi.searchQueries
    split
    · rfl
    · rw [hr2]
      rfl

/-! ### C6: the coverage gate threshold -/

/-- C6 (confirmed): whenever the question has meaningful terms and the best
overlap ratio over the top ten candidates stays below 0.20, the coverage
gate rejects; an overlap of zero is an instance, so it never passes. -/
theorem coverage_gate_threshold :
    ∀ (question : String) (candidates : List Candidate),
      ChatHelpers._tokenize_for_coverage question ≠ [] →
      ChatHelpers.bestOverlap (ChatHelpers._tokenize_for_coverage question)
        (candidates.take 10) 0 < fracQ 20 100 →
      ChatHelpers._passes_coverage_gate question candidates = false := by
  intro question candidates h1 h2
  have he : (ChatHelpers._tokenize_for_coverage question).isEmpty = false := by
    cases hq : ChatHelpers._tokenize_for_coverage question with
    | nil => exact absurd hq h1
    | cons a l => rfl
  simp only [ChatHelpers._passes_coverage_gate, he, Bool.false_eq_true, if_false]
  exact decide_eq_false (not_le.mpr h2)

theorem coverage_gate_threshold_witness :
    ChatHelpers._tokenize_for_coverage "hypericum perforatum facts" ≠ [] ∧
    ChatHelpers.bestOverlap
        (ChatHelpers._tokenize_for_coverage "hypericum perforatum facts")
        (([candOffTopic] : List Candidate).take 10) 0 < fracQ 20 100 ∧
    ChatHelpers._passes_coverage_gate "hypericum perforatum facts" [candOffTopic] = false :=
  ⟨by decide, by decide,
   coverage_gate_threshold "hypericum perforatum facts" [candOffTopic]
     (by decide) (by decide)⟩

/-! ### C8: the focus-filter floor -/

/-- C8 (confirmed): for an input of at least min_keep chunks, the focus
filter returns either the input itself or a sublist of at least min_keep
chunks, each containing one of the extracted terms case-insensitively; the
output size is never strictly between zero and min_keep. -/
theorem focus_filter_floor :
    ∀ {α : Type} (contentOf : α → Option String) (chunks : List α)
      (question : String) (mk : Nat), mk ≤ chunks.length →
      ChatApi.focus_by_entity contentOf chunks question mk = chunks ∨
      (mk ≤ (ChatApi.focus_by_entity contentOf chunks question mk).length ∧
        (ChatApi.focus_by_entity contentOf chunks question mk).Sublist chunks ∧
        ∀ ch ∈ ChatApi.focus_by_entity contentOf chunks question mk,
          ∃ term ∈ ChatApi.focusTerms question,
            listContainsSub term (lowerList ((contentOf ch).getD "").toList) = true) := by
  intro α contentOf chunks question mk hlen
  simp only [ChatApi.focus_by_entity]
  split
  · exact Or.inl rfl
  · split
    · exact Or.inl rfl
    · rename_i hterms hfloor
      refine Or.inr ⟨not_lt.mp hfloor, List.filter_sublist _, ?_⟩
      intro ch hch
      have hpred := (List.mem_filter.mp hch).2
      exact List.any_eq_true.mp hpred

theorem focus_filter_floor_witness :
    2 ≤ ([candHyp1, candHyp2, candOffTopic] : List Candidate).length ∧
    (ChatApi.focus_by_entity Candidate.content [candHyp1, candHyp2, candOffTopic]
        "hypericum?" 2 = [candHyp1, candHyp2, candOffTopic] ∨
      (2 ≤ (ChatApi.focus_by_entity Candidate.content
          [candHyp1, candHyp2, candOffTopic] "hypericum?" 2).length ∧
        (ChatApi.focus_by_entity Candidate.content
          [candHyp1, candHyp2, candOffTopic] "hypericum?" 2).Sublist
          [candHyp1, candHyp2, candOffTopic] ∧
        ∀ ch ∈ ChatApi.focus_by_entity Candidate.content
            [candHyp1, candHyp2, candOffTopic] "hypericum?" 2,
          ∃ term ∈ ChatApi.focusTerms "hypericum?",
            listContainsSub term
              (lowerList ((Candidate.content ch).getD "").toList) = true)) :=
  ⟨by decide,
   focus_filter_floor Candidate.content [candHyp1, candHyp2, candOffTopic]
     "hypericum?" 2 (by decide)⟩

/-! ### C9: the noise classifier on short and boilerplate text -/

theorem matchesNoiseHeader_of_boilerplate (s : List Char) :
    ChatApi.beginsWithBoilerplate s = true → ChatApi.matchesNoiseHeader s = true := by
  intro h
  simp only [ChatApi.beginsWithBoilerplate, List.any_eq_true] at h
  obtain ⟨hd, hmem, hpred⟩ := h
  simp only [ChatApi.matchesNoiseHeader, List.any_eq_true]
  refine ⟨hd, ?_, hpred⟩
  fin_cases hmem <;> decide

theorem api_noise_of_short (text : String)
    (h : (stripList text.toList).length < 120) :
    ChatApi._is_noise_chunk text = true := by
  simp only [ChatApi._is_noise_chunk]
  by_cases he : text.toList.isEmpty = true
  · rw [if_pos he]
  · rw [if_neg he, if_pos h]

/-- C9 (confirmed): the chat_api noise classifier (the one carrying the
boilerplate patterns, used by the /chat endpoint) returns true whenever the
trimmed text is shorter than 120 characters, and whenever the trimmed,
lowercased text begins with one of the six boilerplate headers the claim
lists, anchored at the start with a word boundary after it. -/
theorem noise_short_and_boilerplate :
    ∀ (text : String),
      ((stripList text.toList).length < 120 → ChatApi._is_noise_chunk text = true) ∧
      (ChatApi.beginsWithBoilerplate (lowerList (stripList text.toList)) = true →
        ChatApi._is_noise_chunk text = true) := by
  intro text
  refine ⟨api_noise_of_short text, ?_⟩
  intro h
  by_cases hs : (stripList text.toList).length < 120
  · exact api_noise_of_short text hs
  · have he : ¬ (text.toList.isEmpty = true) := by
      intro hE
      apply hs
      rw [List.isEmpty_iff] at hE
      rw [hE]
      decide
    simp only [ChatApi._is_noise_chunk]
    rw [if_neg he, if_neg hs, if_pos (matchesNoiseHeader_of_boilerplate _ h)]

theorem noise_short_and_boilerplate_witness :
    ChatApi._is_noise_chunk "tiny" = true ∧ ChatApi._is_noise_chunk refsDoc = true :=
  ⟨(noise_short_and_boilerplate "tiny").1 (by decide),
   (noise_short_and_boilerplate refsDoc).2 (by decide)⟩

/-! ### C1: reciprocal rank fusion scores -/

theorem scoreVecRows_scores_getD (rows : List (Chunk × ℚ)) :
    ∀ (rank : Nat) (st : ChatHelpers.QState) (cid : Int),
      assocGetD (ChatHelpers.scoreVecRows rank st rows).scores cid 0 =
        assocGetD st.scores cid 0 + ChatHelpers.rrfListContrib cid rank rows := by
  induction rows with
  | nil =>
    intro rank st cid
    simp [ChatHelpers.scoreVecRows, ChatHelpers.rrfListContrib]
  | cons p rest ih =>
    intro rank st cid
    obtain ⟨ch, dist⟩ := p
    simp only [ChatHelpers.scoreVecRows, ChatHelpers.rrfListContrib]
    rw [ih]
    simp only [assocGetD_upsertAdd]
    by_cases hc : cid = ch.id
    · rw [if_pos hc, if_pos hc.symm]; ring
    · rw [if_neg hc, if_neg (fun hcc => hc hcc.symm)]; ring

theorem scoreFtsRows_scores_getD (rows : List (Chunk × ℚ)) :
    ∀ (rank : Nat) (st : ChatHelpers.QState) (cid : Int),
      assocGetD (ChatHelpers.scoreFtsRows rank st rows).scores cid 0 =
        assocGetD st.scores cid 0 + ChatHelpers.rrfListContrib cid rank rows := by
  induction rows with
  | nil =>
    intro rank st cid
    simp [ChatHelpers.scoreFtsRows, ChatHelpers.rrfListContrib]
  | cons p rest ih =>
    intro rank st cid
    obtain ⟨ch, dist⟩ := p
    simp only [ChatHelpers.scoreFtsRows, ChatHelpers.rrfListContrib]
    rw [ih]
    simp only [assocGetD_upsertAdd]
    by_cases hc : cid = ch.id
    · rw [if_pos hc, if_pos hc.symm]; ring
    · rw [if_neg hc, if_neg (fun hcc => hc hcc.symm)]; ring

theorem fuseQuery_scores_getD (vec fts : List (Chunk × ℚ)) (cid : Int) :
    assocGetD (ChatHelpers.fuseQuery vec fts).scores cid 0 =
      ChatHelpers.rrfListContrib cid 1 vec + ChatHelpers.rrfListContrib cid 1 fts := by
  unfold ChatHelpers.fuseQuery
  rw [scoreFtsRows_scores_getD, scoreVecRows_scores_getD]
  simp [ChatHelpers.initQState, assocGetD]

/-- C1 counterexample: specification scenario D run on the fused retrieval.
The shared chunk (id 1) is ranked first by query qa and third by query qb;
its fused score in the output is 1/61, not the claimed 1/61 + 1/63, because
per-query fused scores are never summed across the queries of a batch — the
first query that keeps a chunk fixes its score. -/
theorem rrf_cross_query_counterexample :
    (ChatHelpers._retrieve_candidates ["qa", "qb"] gvScenarioD (fun _ => [])).map
        (fun s => (s.chunk.id, s.rrf)) =
      [(1, mkRat 1 61), (6, mkRat 1 61), (2, mkRat 1 62), (7, mkRat 1 62),
       (3, mkRat 1 63), (4, mkRat 1 64), (8, mkRat 1 64), (5, mkRat 1 65),
       (9, mkRat 1 65)] ∧
    mkRat 1 61 ≠ mkRat 1 61 + mkRat 1 63 := by
  refine ⟨by decide, ?_⟩
  rw [← qadd_eq_add]
  decide

/-- C1 (amended): within one query, a chunk at 1-indexed rank r in either of
the query's two ranked lists contributes 1/(60+r) to that query's fused
score, and the contributions of the two lists are summed per chunk id;
across the queries of a batch scores are not summed — in scenario D the
shared chunk keeps the fused score 1/(60+1) from the first query, which is
still strictly higher than the 1/(60+5) of a chunk ranked fifth in a single
list. -/
theorem rrf_fusion_per_query_amended :
    (∀ (vec fts : List (Chunk × ℚ)) (cid : Int),
      assocGetD (ChatHelpers.fuseQuery vec fts).scores cid 0 =
        ChatHelpers.rrfListContrib cid 1 vec + ChatHelpers.rrfListContrib cid 1 fts) ∧
    ((ChatHelpers._retrieve_candidates ["qa", "qb"] gvScenarioD (fun _ => [])).map
        (fun s => (s.chunk.id, s.rrf)) =
      [(1, mkRat 1 61), (6, mkRat 1 61), (2, mkRat 1 62), (7, mkRat 1 62),
       (3, mkRat 1 63), (4, mkRat 1 64), (8, mkRat 1 64), (5, mkRat 1 65),
       (9, mkRat 1 65)] ∧
      mkRat 1 65 < mkRat 1 61) :=
  ⟨fuseQuery_scores_getD, by decide, by decide⟩

/-! ### C2: deduplication of the fused output -/

theorem mergeRow_inv (st : ChatHelpers.MergeState) (row : Chunk × ℚ × ℚ)
    (h1 : st.seen_ids = st.merged.map (fun s => s.chunk.id))
    (h2 : st.seen_ids.Nodup) :
    (ChatHelpers.mergeRow st row).seen_ids =
        (ChatHelpers.mergeRow st row).merged.map (fun s => s.chunk.id) ∧
      (ChatHelpers.mergeRow st row).seen_ids.Nodup := by
  simp only [ChatHelpers.mergeRow]
  split
  · exact ⟨h1, h2⟩
  · split
    · exact ⟨h1, h2⟩
    · rename_i hnoise hdup
      have hmem : row.1.id ∉ st.seen_ids := by
        intro hm
        exact hdup (List.elem_iff.mpr hm)
      constructor
      · simp [h1]
      · simp [List.nodup_append, h2, hmem]

theorem mergeRows_inv (rows : List (Chunk × ℚ × ℚ)) :
    ∀ (st : ChatHelpers.MergeState),
      st.seen_ids = st.merged.map (fun s => s.chunk.id) →
      st.seen_ids.Nodup →
      (ChatHelpers.mergeRows st rows).seen_ids =
          (ChatHelpers.mergeRows st rows).merged.map (fun s => s.chunk.id) ∧
        (ChatHelpers.mergeRows st rows).seen_ids.Nodup := by
  induction rows with
  | nil => intro st h1 h2; exact ⟨h1, h2⟩
  | cons row rest ih =>
    intro st h1 h2
    have h := mergeRow_inv st row h1 h2
    exact ih _ h.1 h.2

theorem foldl_inv (gv gf : String → List (Chunk × ℚ)) (l : List String) :
    ∀ (st : ChatHelpers.MergeState),
      st.seen_ids = st.merged.map (fun s => s.chunk.id) →
      st.seen_ids.Nodup →
      (l.foldl (ChatHelpers.processQuery gv gf) st).seen_ids =
          (l.foldl (ChatHelpers.processQuery gv gf) st).merged.map
            (fun s => s.chunk.id) ∧
        (l.foldl (ChatHelpers.processQuery gv gf) st).seen_ids.Nodup := by
  induction l with
  | nil => intro st h1 h2; exact ⟨h1, h2⟩
  | cons a rest ih =>
    intro st h1 h2
    have h := mergeRows_inv
      (ChatHelpers.queryRows (gv (ChatHelpers.normalize_query_for_retrieval a))
        (gf (ChatHelpers.normalize_query_for_retrieval a))) st h1 h2
    exact ih _ h.1 h.2

theorem runQueries_inv (questions : List String)
    (gv gf : String → List (Chunk × ℚ)) :
    (ChatHelpers.runQueries questions gv gf).seen_ids =
        (ChatHelpers.runQueries questions gv gf).merged.map
          (fun s => s.chunk.id) ∧
      (ChatHelpers.runQueries questions gv gf).seen_ids.Nodup :=
  foldl_inv gv gf questions ChatHelpers.initMergeState rfl List.nodup_nil

/-- C2 counterexample: both queries return the same chunk whose content is
below the 160-character noise floor, so only the degraded fallback pool is
returned — and it contains chunk id 5 twice, because the fallback pool is
deduplicated only against ids of kept chunks and a noise drop never marks
an id as seen. -/
theorem dedup_degraded_counterexample :
    ¬ ((ChatHelpers._retrieve_candidates ["a", "b"] gvNoiseOnly (fun _ => [])).map
        (fun s => s.chunk.id)).Nodup := by decide

/-- C2 (amended): in the primary (non-degraded) path — whenever the merged
list of a fusion run is non-empty — no chunk id appears twice in the
returned candidate list; the degraded fallback path can return the same
chunk id twice when a noise-dropped chunk recurs across queries. -/
theorem dedup_primary_output_amended :
    ∀ (questions : List String) (getVec getFts : String → List (Chunk × ℚ)),
      (ChatHelpers.runQueries questions getVec getFts).merged ≠ [] →
      ((ChatHelpers._retrieve_candidates questions getVec getFts).map
          (fun s => s.chunk.id)).Nodup := by
  intro qs gv gf hm
  have hinv := runQueries_inv qs gv gf
  have hnd : ((ChatHelpers.runQueries qs gv gf).merged.map
      (fun s => s.chunk.id)).Nodup := by
    rw [← hinv.1]; exact hinv.2
  have hempty : (ChatHelpers.runQueries qs gv gf).merged.isEmpty = false := by
    cases h : (ChatHelpers.runQueries qs gv gf).merged with
    | nil => exact absurd h hm
    | cons a l => rfl
  have hcond : ((ChatHelpers.runQueries qs gv gf).merged.isEmpty &&
      !(ChatHelpers.runQueries qs gv gf).fallback_rows.isEmpty) = false := by
    rw [hempty]; rfl
  simp only [ChatHelpers._retrieve_candidates, hcond, Bool.false_eq_true, if_false]
  have hperm := ((pySort_perm ChatHelpers.byRrfThenDist
    (ChatHelpers.runQueries qs gv gf).merged).map (fun s => s.chunk.id))
  exact hperm.nodup_iff.mpr hnd

/-! ### C7: the anti-starvation fallback -/

theorem upsertAdd_ne_nil (m : List (Int × ℚ)) (k : Int) (x : ℚ) :
    upsertAdd m k x ≠ [] := setAssoc_ne_nil m k _

theorem scoreVecRows_scores_ne_nil (rows : List (Chunk × ℚ)) :
    ∀ (rank : Nat) (st : ChatHelpers.QState),
      (st.scores ≠ [] ∨ rows ≠ []) →
      (ChatHelpers.scoreVecRows rank st rows).scores ≠ [] := by
  induction rows with
  | nil =>
    intro rank st h
    rcases h with h | h
    · exact h
    · exact absurd rfl h
  | cons p rest ih =>
    intro rank st h
    obtain ⟨ch, dist⟩ := p
    simp only [ChatHelpers.scoreVecRows]
    exact ih _ _ (Or.inl (upsertAdd_ne_nil _ _ _))

theorem scoreFtsRows_scores_ne_nil (rows : List (Chunk × ℚ)) :
    ∀ (rank : Nat) (st : ChatHelpers.QState),
      (st.scores ≠ [] ∨ rows ≠ []) →
      (ChatHelpers.scoreFtsRows rank st rows).scores ≠ [] := by
  induction rows with
  | nil =>
    intro rank st h
    rcases h with h | h
    · exact h
    · exact absurd rfl h
  | cons p rest ih =>
    intro rank st h
    obtain ⟨ch, dist⟩ := p
    simp only [ChatHelpers.scoreFtsRows]
    exact ih _ _ (Or.inl (upsertAdd_ne_nil _ _ _))

theorem fuseQuery_scores_ne_nil (vec fts : List (Chunk × ℚ))
    (h : vec ≠ [] ∨ fts ≠ []) :
    (ChatHelpers.fuseQuery vec fts).scores ≠ [] := by
  unfold ChatHelpers.fuseQuery
  rcases h with h | h
  · exact scoreFtsRows_scores_ne_nil fts 1 _
      (Or.inl (scoreVecRows_scores_ne_nil vec 1 _ (Or.inr h)))
  · exact scoreFtsRows_scores_ne_nil fts 1 _ (Or.inr h)

theorem queryRows_ne_nil (vec fts : List (Chunk × ℚ))
    (h : vec ≠ [] ∨ fts ≠ []) : ChatHelpers.queryRows vec fts ≠ [] := by
  simp only [ChatHelpers.queryRows]
  apply pySort_ne_nil
  simp only [ne_eq, List.map_eq_nil_iff]
  exact fuseQuery_scores_ne_nil vec fts h

theorem mergeRow_keeps (st : ChatHelpers.MergeState) (row : Chunk × ℚ × ℚ) :
    (st.merged ≠ [] → (ChatHelpers.mergeRow st row).merged ≠ []) ∧
    (st.fallback_rows ≠ [] → (ChatHelpers.mergeRow st row).fallback_rows ≠ []) := by
  simp only [ChatHelpers.mergeRow]
  constructor
  · intro h
    split
    · exact h
    · split
      · exact h
      · simp
  · intro h
    split
    · split
      · simp
      · exact h
    · split
      · split
        · simp
        · exact h
      · split
        · simp
        · exact h

theorem mergeRows_keeps (rows : List (Chunk × ℚ × ℚ)) :
    ∀ (st : ChatHelpers.MergeState),
      (st.merged ≠ [] ∨ st.fallback_rows ≠ []) →
      ((ChatHelpers.mergeRows st rows).merged ≠ [] ∨
        (ChatHelpers.mergeRows st rows).fallback_rows ≠ []) := by
  induction rows with
  | nil => intro st h; exact h
  | cons row rest ih =>
    intro st h
    apply ih
    rcases h with h | h
    · exact Or.inl ((mergeRow_keeps st row).1 h)
    · exact Or.inr ((mergeRow_keeps st row).2 h)

theorem foldl_keeps (gv gf : String → List (Chunk × ℚ)) (l : List String) :
    ∀ (st : ChatHelpers.MergeState),
      (st.merged ≠ [] ∨ st.fallback_rows ≠ []) →
      ((l.foldl (ChatHelpers.processQuery gv gf) st).merged ≠ [] ∨
        (l.foldl (ChatHelpers.processQuery gv gf) st).fallback_rows ≠ []) := by
  induction l with
  | nil => intro st h; exact h
  | cons a rest ih =>
    intro st h
    exact ih _ (mergeRows_keeps
      (ChatHelpers.queryRows (gv (ChatHelpers.normalize_query_for_retrieval a))
        (gf (ChatHelpers.normalize_query_for_retrieval a))) st h)

theorem mergeRows_seeds (rows : List (Chunk × ℚ × ℚ))
    (st : ChatHelpers.MergeState) (h1 : st.merged = [])
    (h2 : st.fallback_rows = []) (h3 : st.seen_ids = [])
    (hrows : rows ≠ []) :
    (ChatHelpers.mergeRows st rows).merged ≠ [] ∨
      (ChatHelpers.mergeRows st rows).fallback_rows ≠ [] := by
  cases rows with
  | nil => exact absurd rfl hrows
  | cons row rest =>
    show (ChatHelpers.mergeRows (ChatHelpers.mergeRow st row) rest).merged ≠ [] ∨ _
    apply mergeRows_keeps
    right
    simp only [ChatHelpers.mergeRow, h2, h3]
    split <;> simp

/-- C7 (confirmed): whenever some query of the batch has a non-empty raw
(pre-noise-filter) result from either lookup, the fused retrieval returns a
non-empty list — if noise filtering plus deduplication eliminated every
candidate, the retained unfiltered fallback pool is returned instead. -/
theorem retrieval_anti_starvation :
    ∀ (questions : List String) (getVec getFts : String → List (Chunk × ℚ))
      (q : String), q ∈ questions →
      (getVec (ChatHelpers.normalize_query_for_retrieval q) ≠ [] ∨
        getFts (ChatHelpers.normalize_query_for_retrieval q) ≠ []) →
      ChatHelpers._retrieve_candidates questions getVec getFts ≠ [] := by
  intro qs gv gf q hmem hraw
  have hrows : ChatHelpers.queryRows
      (gv (ChatHelpers.normalize_query_for_retrieval q))
      (gf (ChatHelpers.normalize_query_for_retrieval q)) ≠ [] :=
    queryRows_ne_nil _ _ hraw
  have hreach : ∀ (l : List String) (st : ChatHelpers.MergeState),
      st.seen_ids = st.merged.map (fun s => s.chunk.id) → st.seen_ids.Nodup →
      q ∈ l →
      ((l.foldl (ChatHelpers.processQuery gv gf) st).merged ≠ [] ∨
        (l.foldl (ChatHelpers.processQuery gv gf) st).fallback_rows ≠ []) := by
    intro l
    induction l with
    | nil => intro st _ _ hm; simp at hm
    | cons a rest ih =>
      intro st hinv hnd hm
      rcases List.mem_cons.mp hm with rfl | hm2
      · show ((rest.foldl (ChatHelpers.processQuery gv gf)
          (ChatHelpers.processQuery gv gf st q)).merged ≠ []) ∨ _
        apply foldl_keeps
        by_cases hM : st.merged = []
        · by_cases hF : st.fallback_rows = []
          · have hS : st.seen_ids = [] := by rw [hinv, hM]; rfl
            exact mergeRows_seeds _ st hM hF hS hrows
          · exact mergeRows_keeps _ st (Or.inr hF)
        · exact mergeRows_keeps _ st (Or.inl hM)
      · -- the query of interest sits further down the list
        have hI := mergeRows_inv
          (ChatHelpers.queryRows (gv (ChatHelpers.normalize_query_for_retrieval a))
            (gf (ChatHelpers.normalize_query_for_retrieval a))) st hinv hnd
        exact ih _ hI.1 hI.2 hm2
  have hQ := hreach qs ChatHelpers.initMergeState rfl List.nodup_nil hmem
  rcases hQ with h | h
  · have hempty : (ChatHelpers.runQueries qs gv gf).merged.isEmpty = false := by
      cases hc : (ChatHelpers.runQueries qs gv gf).merged with
      | nil => exact absurd hc h
      | cons x l => rfl
    have hcond : ((ChatHelpers.runQueries qs gv gf).merged.isEmpty &&
        !(ChatHelpers.runQueries qs gv gf).fallback_rows.isEmpty) = false := by
      rw [hempty]; rfl
    simp only [ChatHelpers._retrieve_candidates, hcond, Bool.false_eq_true, if_false]
    exact pySort_ne_nil _ _ h
  · by_cases hM : (ChatHelpers.runQueries qs gv gf).merged = []
    · have hcond : ((ChatHelpers.runQueries qs gv gf).merged.isEmpty &&
          !(ChatHelpers.runQueries qs gv gf).fallback_rows.isEmpty) = true := by
        rw [hM]
        cases hc : (ChatHelpers.runQueries qs gv gf).fallback_rows with
        | nil => exact absurd hc h
        | cons x l => rfl
      simp only [ChatHelpers._retrieve_candidates, hcond, if_true]
      exact pySort_ne_nil _ _ h
    · have hempty : (ChatHelpers.runQueries qs gv gf).merged.isEmpty = false := by
        cases hc : (ChatHelpers.runQueries qs gv gf).merged with
        | nil => exact absurd hc hM
        | cons x l => rfl
      have hcond : ((ChatHelpers.runQueries qs gv gf).merged.isEmpty &&
          !(ChatHelpers.runQueries qs gv gf).fallback_rows.isEmpty) = false := by
        rw [hempty]; rfl
      simp only [ChatHelpers._retrieve_candidates, hcond, Bool.false_eq_true, if_false]
      exact pySort_ne_nil _ _ hM

theorem retrieval_anti_starvation_witness :
    "hi" ∈ (["hi"] : List String) ∧
    (gvNoiseOnly (ChatHelpers.normalize_query_for_retrieval "hi") ≠ [] ∨
      (fun (_ : String) => ([] : List (Chunk × ℚ)))
        (ChatHelpers.normalize_query_for_retrieval "hi") ≠ []) ∧
    ChatHelpers._retrieve_candidates ["hi"] gvNoiseOnly (fun _ => []) ≠ [] :=
  ⟨by decide, Or.inl (by decide),
   retrieval_anti_starvation ["hi"] gvNoiseOnly (fun _ => []) "hi"
     (by decide) (Or.inl (by decide))⟩

theorem dedup_primary_output_witness :
    (ChatHelpers.runQueries ["qa", "qb"] gvScenarioD (fun _ => [])).merged ≠ [] ∧
    ((ChatHelpers._retrieve_candidates ["qa", "qb"] gvScenarioD (fun _ => [])).map
        (fun s => s.chunk.id)).Nodup :=
  ⟨by decide,
   dedup_primary_output_amended ["qa", "qb"] gvScenarioD (fun _ => []) (by decide)⟩

/-! ### C10: the reference-mode multi-question refusal -/

/-- C10 (confirmed): in reference mode with the LLM enabled, if the pipeline
leaves at least one candidate after the relevance filter and the question
contains a comma, a semicolon or the word and with surrounding spaces
(case-insensitive), the endpoint answers with the fixed refusal text, empty
sources, empty candidates and stored_records zero.  The answer-generator
argument is universally quantified and absent from the conclusion, so the
refusal is produced without consulting the generator. -/
theorem reference_mode_multi_question_refusal :
    ∀ (req : ChatApi.ChatRequest) (rwE : Bool) (n : Nat)
      (rewriteRaw : Option String) (getVec : String → List (ChatApi.ApiChunk × ℚ))
      (judgeRaw : Option String) (genAnswer : String → String → String → String)
      (be lm : String),
      ChatApi.chatMode req = "reference" →
      ChatApi.chatCandidates req true rwE n rewriteRaw getVec judgeRaw ≠ [] →
      ChatApi.hasMultiSep req.question = true →
      ChatApi.chat req true rwE n rewriteRaw getVec judgeRaw genAnswer be lm =
        { workspace_id := req.workspace_id, question := req.question,
          role := req.role, answer := ChatApi.refusalAnswer, sources := [],
          stored_records := 0, candidates := [], llm_backend := be,
          llm_model := lm, mode := some "reference" } := by
  intro req rwE n rewriteRaw getVec judgeRaw genAnswer be lm hmode hne hsep
  have hlen : ((ChatApi.chatCandidates req true rwE n rewriteRaw getVec
      judgeRaw).length == 0) = false := by
    cases hcs : ChatApi.chatCandidates req true rwE n rewriteRaw getVec judgeRaw with
    | nil => exact absurd hcs hne
    | cons a l => rfl
  simp only [ChatApi.chat, hmode, hlen, hsep, Bool.false_eq_true, if_false,
    Bool.not_true, beq_self_eq_true, Bool.and_self, if_true]

theorem reference_mode_multi_question_refusal_witness :
    ChatApi.chatMode reqRef = "reference" ∧
    ChatApi.chatCandidates reqRef true true 3 none gvApiSingle (some "0") ≠ [] ∧
    ChatApi.hasMultiSep reqRef.question = true ∧
    ChatApi.chat reqRef true true 3 none gvApiSingle (some "0")
        (fun _ _ _ => "generated") "be" "lm" =
      { workspace_id := reqRef.workspace_id, question := reqRef.question,
        role := reqRef.role, answer := ChatApi.refusalAnswer, sources := [],
        stored_records := 0, candidates := [], llm_backend := "be",
        llm_model := "lm", mode := some "reference" } :=
  ⟨by decide, by decide, by decide,
   reference_mode_multi_question_refusal reqRef true 3 none gvApiSingle
     (some "0") (fun _ _ _ => "generated") "be" "lm"
     (by decide) (by decide) (by decide)⟩

end RagSaas
